import Mathlib

/-!
Verification of the tracing/serialization library (`decorator.py`,
`llm_decorator.py`, `tracegen.py`).

Strings are modelled as `List Char` (Python `str`), machine integers as
`Int`/`Nat` (Python ints are unbounded), and Python values that the
serializer can receive as the inductive type `PyVal` below, covering the
JSON-like subset the code dispatches on (`None`, `bool`, `int`, `str`,
`bytes`, `dict`, `list`, `tuple`, `set`).  Floats are omitted: no claim
depends on them, and the code passes them through unchanged.
-/

set_option autoImplicit false

abbrev Str := List Char

/-- Python values reaching the bounded serializer.  Dict keys are modelled
as strings: the source stringifies every key with `str(k)` before use, and
string keys are the identity case of that call.  Dict entries are kept in
insertion order, as CPython does. -/
inductive PyVal where
  | pnone
  | pbool (b : Bool)
  | pint (n : Int)
  | pstr (s : Str)
  | pbytes (b : List Nat)
  | pdict (entries : List (Str × PyVal))
  | plist (xs : List PyVal)
  | ptuple (xs : List PyVal)
  | pset (xs : List PyVal)

instance : Inhabited PyVal := ⟨.pnone⟩

/-- Python `s[:i]` (slice up to `i`): a nonnegative bound takes the first
`i` characters (clamped), a negative bound means `len(s) + i`, clamped
below at `0` (which `Nat` subtraction provides). -/
def pySliceTake (s : Str) (i : Int) : Str :=
  if 0 ≤ i then s.take i.toNat else s.take (s.length - (-i).toNat)

/-- Python `s[i:]` (slice from `i`): a nonnegative start drops the first
`i` characters (clamped), a negative start means `len(s) + i`, clamped
below at `0`. -/
def pySliceFrom (s : Str) (i : Int) : Str :=
  if 0 ≤ i then s.drop i.toNat else s.drop (s.length - (-i).toNat)

/-- Bit length of a natural number (`int.bit_length()`), written with a
fuel argument so it is structurally recursive and kernel-computable; the
argument halves each step, so `fuel = n` always suffices
(`n ≥ ⌊log₂ n⌋ + 1` for `n ≥ 1`). -/
def bitLenAux : Nat → Nat → Nat
  | 0, _ => 0
  | fuel + 1, n => if n = 0 then 0 else bitLenAux fuel (n / 2) + 1

def bitLen (n : Nat) : Nat := bitLenAux n n

/-- Round `N` to the nearest multiple of `2^sh`, ties to the even
multiple — the IEEE-754 round-to-nearest-even step on a significand. -/
def roundAt (sh N : Nat) : Nat :=
  if 2 * (N % 2 ^ sh) < 2 ^ sh then (N / 2 ^ sh) * 2 ^ sh
  else if 2 ^ sh < 2 * (N % 2 ^ sh) then (N / 2 ^ sh + 1) * 2 ^ sh
  else if (N / 2 ^ sh) % 2 = 0 then (N / 2 ^ sh) * 2 ^ sh
  else (N / 2 ^ sh + 1) * 2 ^ sh

/-- Round a natural number to 53 significant bits (round to nearest,
ties to even): the IEEE-754 binary64 rounding of `N·2^k` for any fixed
exponent `k`, expressed on the numerator `N`. -/
def roundSig (N : Nat) : Nat :=
  if bitLen N ≤ 53 then N
  else roundAt (bitLen N - 53) N

/-- The integer significand of the binary64 double nearest `0.7`:
`0.7 ≈ 6305039478318694 / 2^53` (the double is slightly below `7/10`).
This is the value Python's literal `0.7` denotes. -/
def c07 : Nat := 6305039478318694

/-- `math.floor(L * 0.7)` for a nonnegative Python int `L`, computed as
CPython does: `L` is first converted to a double (`roundSig L` — exact
for `L < 2^53`), the product with the double `0.7` is formed exactly as
`roundSig L · c07 / 2^53` and rounded to a double (`roundSig` again),
and the floor of that double is taken.  Conversion overflow
(`L ≥ 2^1024`, where Python raises `OverflowError`) is outside the
model; every limit a caller can supply is far below it. -/
def floorMul07Pos (L : Nat) : Nat := roundSig (roundSig L * c07) / 2 ^ 53

/-- `math.ceil` counterpart, used for the negative-limit branch
(IEEE rounding is sign-symmetric and `floor(-x) = -ceil(x)`). -/
def ceilMul07Pos (L : Nat) : Nat := (roundSig (roundSig L * c07) + 2 ^ 53 - 1) / 2 ^ 53

/-- `math.floor(limit * 0.7)` on Python ints of either sign. -/
def floorMul07 (limit : Int) : Int :=
  if 0 ≤ limit then (floorMul07Pos limit.toNat : Int)
  else -(ceilMul07Pos (-limit).toNat : Int)

/-- The float model matches CPython exactly where double arithmetic
diverges from exact rational arithmetic: `math.floor(90 * 0.7) == 62`
although `⌊7·90/10⌋ = 63` (likewise at 170, 180, 330, …), while at
10 the product `10 * 0.7` rounds (ties-to-even) to exactly `7.0`. -/
theorem floorMul07Pos_cpython_samples :
    floorMul07Pos 90 = 62 ∧ 7 * 90 / 10 = 63 ∧ floorMul07Pos 170 = 118
    ∧ floorMul07Pos 10 = 7 ∧ floorMul07Pos 11 = 7 ∧ floorMul07Pos 4000 = 2800 := by
  decide

/-- `decorator.py` `_shorten`: strings at most `limit` long pass through;
otherwise the result is `s[:head] + "..." + s[-tail:]` with
`head = math.floor(limit * 0.7)` — computed in IEEE-754 double
arithmetic, see `floorMul07` — and `tail = limit - head - 3`.
(`llm_decorator.py` has the same function with `limit` defaulted to 4000
and a JSON pre-coercion for non-strings; on strings the two agree.) -/
def _shorten (s : Str) (limit : Int) : Str :=
  if (s.length : Int) ≤ limit then s
  else
    let head := floorMul07 limit
    let tail := limit - head - 3
    pySliceTake s head ++ ['.', '.', '.'] ++ pySliceFrom s (-tail)

theorem bitLenAux_zero (fuel : Nat) : bitLenAux fuel 0 = 0 := by
  cases fuel <;> simp [bitLenAux]

theorem bitLenAux_spec : ∀ fuel n, 1 ≤ n → n ≤ fuel →
    2 ^ (bitLenAux fuel n - 1) ≤ n ∧ 1 ≤ bitLenAux fuel n := by
  intro fuel
  induction fuel with
  | zero => intro n h1 h2; omega
  | succ f ih =>
    intro n h1 h2
    rw [bitLenAux, if_neg (by omega)]
    by_cases h0 : n / 2 = 0
    · rw [h0, bitLenAux_zero]
      have : n = 1 := by omega
      subst this
      norm_num
    · have hrec := ih (n / 2) (by omega) (by omega)
      refine ⟨?_, by omega⟩
      have hk1 : 1 ≤ bitLenAux f (n / 2) := hrec.2
      have hpow : 2 ^ (bitLenAux f (n / 2)) = 2 * 2 ^ (bitLenAux f (n / 2) - 1) := by
        rw [← pow_succ']
        congr 1
        omega
      have hlow := hrec.1
      have : bitLenAux f (n / 2) + 1 - 1 = bitLenAux f (n / 2) := by omega
      rw [this, hpow]
      omega

theorem bitLen_lower (n : Nat) (h : 1 ≤ n) : 2 ^ (bitLen n - 1) ≤ n :=
  (bitLenAux_spec n n h le_rfl).1

/-- Round-to-nearest moves the value up by at most half the granularity. -/
theorem roundAt_le (sh N : Nat) (hsh : 1 ≤ sh) : roundAt sh N ≤ N + 2 ^ (sh - 1) := by
  unfold roundAt
  set p := 2 ^ sh with hp
  set q := N / p with hqdef
  set r := N % p with hrdef
  have hqr : p * q + r = N := Nat.div_add_mod N p
  have hr : r < p := Nat.mod_lt _ (by positivity)
  have hP : p = 2 * 2 ^ (sh - 1) := by
    rw [hp, ← pow_succ']
    congr 1
    omega
  have hq0 : q * p = p * q := by ring
  have hq1 : (q + 1) * p = p * q + p := by ring
  split
  · omega
  · split
    · omega
    · split <;> omega

/-- The 53-bit rounding of `N` exceeds `N` by at most `N / 2^53`
(half an ulp). -/
theorem roundSig_le (N : Nat) : roundSig N ≤ N + N / 2 ^ 53 := by
  unfold roundSig
  split
  · omega
  · rename_i hb
    have hN1 : 1 ≤ N := by
      rcases Nat.eq_zero_or_pos N with h0 | h1
      · subst h0
        simp [bitLen, bitLenAux] at hb
      · exact h1
    have hlow := bitLen_lower N hN1
    have hsh1 : 1 ≤ bitLen N - 53 := by omega
    have h1 := roundAt_le (bitLen N - 53) N hsh1
    have hhalf : 2 ^ (bitLen N - 53 - 1) * 2 ^ 53 ≤ N := by
      have he : bitLen N - 53 - 1 + 53 = bitLen N - 1 := by omega
      calc 2 ^ (bitLen N - 53 - 1) * 2 ^ 53 = 2 ^ (bitLen N - 53 - 1 + 53) := (pow_add 2 _ _).symm
        _ = 2 ^ (bitLen N - 1) := by rw [he]
        _ ≤ N := hlow
    have hhalf' : 2 ^ (bitLen N - 53 - 1) ≤ N / 2 ^ 53 :=
      (Nat.le_div_iff_mul_le (by positivity)).mpr hhalf
    omega

/-- For `L ≥ 11` the float head stays at least 4 short of `L`, so the
tail slice is non-degenerate. -/
theorem floorMul07Pos_add_four_le (L : Nat) (h : 11 ≤ L) : floorMul07Pos L + 4 ≤ L := by
  show roundSig (roundSig L * c07) / 2 ^ 53 + 4 ≤ L
  have hLf : roundSig L ≤ L + L / 2 ^ 53 := roundSig_le L
  have hA : L / 2 ^ 53 * 2 ^ 53 ≤ L := Nat.div_mul_le_self _ _
  set A := L / 2 ^ 53 with hAdef
  set Lf := roundSig L with hLfdef
  set M := Lf * c07 with hMdef
  have hMr : roundSig M ≤ M + M / 2 ^ 53 := roundSig_le M
  have hM_le : M ≤ L * c07 + A * c07 := by
    calc M ≤ (L + A) * c07 := Nat.mul_le_mul_right _ hLf
      _ = L * c07 + A * c07 := by ring
  have hAc07 : A * c07 ≤ A * 2 ^ 53 := Nat.mul_le_mul_left _ (by norm_num [c07])
  have hM2 : M ≤ L * 2 ^ 53 := by
    have h1 : L * c07 + L = L * (c07 + 1) := by ring
    have h2 : L * (c07 + 1) ≤ L * 2 ^ 53 := Nat.mul_le_mul_left _ (by norm_num [c07])
    omega
  have hD : M / 2 ^ 53 ≤ L := by
    have h1 := Nat.div_le_div_right (c := 2 ^ 53) hM2
    rwa [Nat.mul_div_cancel _ (by positivity)] at h1
  have hLK : 11 * 2702159776422295 ≤ L * 2702159776422295 :=
    Nat.mul_le_mul_right _ (by omega)
  have hsplit : L * c07 + L * 2702159776422295 + L * 3 = L * 2 ^ 53 := by
    rw [← Nat.mul_add, ← Nat.mul_add]
    congr 1
  have hsub : (L - 3) * 2 ^ 53 = L * 2 ^ 53 - 3 * 2 ^ 53 := by
    rw [Nat.sub_mul]
  have hnum : 3 * 2 ^ 53 < 11 * 2702159776422295 := by norm_num
  have hkey : roundSig M < (L - 3) * 2 ^ 53 := by omega
  have hfin : roundSig M / 2 ^ 53 < L - 3 := (Nat.div_lt_iff_lt_mul (by positivity)).mpr hkey
  omega

/-- The structural form of `_shorten s L` for `11 ≤ L < len s`:
a head of `floorMul07Pos L` characters, the three-dot marker, then the
last `L - floorMul07Pos L - 3` characters. -/
theorem shorten_eq (s : Str) (L : Nat) (hL : 11 ≤ L) (hlen : L < s.length) :
    _shorten s (L : Int) =
      s.take (floorMul07Pos L) ++ ['.', '.', '.']
        ++ s.drop (s.length - (L - floorMul07Pos L - 3)) := by
  have hub : floorMul07Pos L + 4 ≤ L := floorMul07Pos_add_four_le L hL
  unfold _shorten
  rw [if_neg (by omega)]
  have hhead : floorMul07 (L : Int) = ((floorMul07Pos L : Nat) : Int) := by
    unfold floorMul07
    rw [if_pos (by positivity)]
    simp
  simp only [hhead, pySliceTake, pySliceFrom]
  have hc4 : ((floorMul07Pos L : Nat) : Int) + 4 ≤ (L : Int) := by exact_mod_cast hub
  rw [if_pos (by positivity : (0 : Int) ≤ ((floorMul07Pos L : Nat) : Int))]
  rw [if_neg (by omega : ¬ (0 : Int) ≤ -((L : Int) - ((floorMul07Pos L : Nat) : Int) - 3))]
  have e1 : (((floorMul07Pos L : Nat) : Int)).toNat = floorMul07Pos L := by omega
  have e2 : (-(-((L : Int) - ((floorMul07Pos L : Nat) : Int) - 3))).toNat
      = L - floorMul07Pos L - 3 := by
    omega
  rw [e1, e2]

/-- Python truthiness of an optional string (`if x:`): present and
non-empty. -/
def truthyS (o : Option Str) : Bool :=
  match o with
  | some s => !s.isEmpty
  | none => false

/-- First value bound to key `k` in an association list (Python
`d.get(k)` for the dicts built here, whose keys are unique). -/
def findVal : List (Str × PyVal) → Str → Option PyVal
  | [], _ => none
  | (k', v) :: rest, k => if k' = k then some v else findVal rest k

/-- Python dict assignment `d[k] = v`: overwrite in place if the key is
present (CPython keeps the original insertion position), else append. -/
def dictInsert (d : List (Str × PyVal)) (k : Str) (v : PyVal) : List (Str × PyVal) :=
  if d.any (fun e => decide (e.1 = k)) then
    d.map (fun e => if e.1 = k then (k, v) else e)
  else d ++ [(k, v)]

/-- `f"<bytes:{len(obj)}>"`. -/
def bytesPlaceholder (n : Nat) : Str :=
  ("<bytes:").data ++ (toString n).data ++ (">").data

/-- The sentinel key `"..."` used for truncated dicts. -/
def dictSentKey : Str := ['.', '.', '.']

/-- `f"+{len(obj)-max_collection} more"`, the truncated-dict sentinel value. -/
def dictOmitted (n : Nat) : Str :=
  ('+' :: (toString n).data) ++ (" more").data

/-- `f"... (+{len(seq)-max_collection} more)"`, the truncated-sequence marker. -/
def seqOmitted (n : Nat) : Str :=
  ("... (+").data ++ (toString n).data ++ (" more)").data

/-- The tail step of the sequence branch: append the omitted-count marker
when the original sequence was longer than `max_collection`
(`if len(seq) > max_collection`). -/
def seqFinish (total mc : Nat) (res : List PyVal) : List PyVal :=
  if mc < total then res ++ [.pstr (seqOmitted (total - mc))] else res

theorem sizeOf_take_le {α : Type} [SizeOf α] : ∀ (n : Nat) (xs : List α),
    sizeOf (xs.take n) ≤ sizeOf xs := by
  intro n xs
  induction xs generalizing n with
  | nil => simp
  | cons x rest ih =>
    cases n with
    | zero => simp; omega
    | succ m =>
      simp only [List.take_succ_cons, List.cons.sizeOf_spec]
      have := ih m
      omega

mutual

/-- `decorator.py` `_jsonable`, the bounded best-effort serializer, as the
mathematical function computed when the interpreter stack suffices (the
stack-bounded operational version is `jsonableD` below).  Scalars pass
through; strings are shortened; bytes become a length placeholder; dicts
are re-built entry by entry with a sentinel once `max_collection` entries
were emitted; lists/tuples/sets are truncated to `max_collection` items
plus an omitted-count marker, tuples staying tuples and sets becoming
lists.  The `model_dump`/`dict`/`__dict__` object branches of the source
concern Python objects outside this value domain and so have no
counterpart here. -/
def jsonable : PyVal → Nat → Nat → PyVal
  | .pnone, _, _ => .pnone
  | .pbool b, _, _ => .pbool b
  | .pint n, _, _ => .pint n
  | .pstr s, ms, _ => .pstr (_shorten s (ms : Int))
  | .pbytes b, _, _ => .pstr (bytesPlaceholder b.length)
  | .pdict entries, ms, mc => .pdict (jsonableDictLoop entries.length ms mc entries 0 [])
  | .plist xs, ms, mc => .plist (seqFinish xs.length mc (jsonableSeq (xs.take mc) ms mc))
  | .ptuple xs, ms, mc => .ptuple (seqFinish xs.length mc (jsonableSeq (xs.take mc) ms mc))
  | .pset xs, ms, mc => .plist (seqFinish xs.length mc (jsonableSeq (xs.take mc) ms mc))
termination_by v _ _ => sizeOf v
decreasing_by
  all_goals simp_wf
  all_goals first
    | omega
    | exact Nat.lt_of_le_of_lt (sizeOf_take_le _ _) (by omega)

/-- The list comprehension `[_jsonable(x, ...) for x in trimmed]`. -/
def jsonableSeq : List PyVal → Nat → Nat → List PyVal
  | [], _, _ => []
  | x :: rest, ms, mc => jsonable x ms mc :: jsonableSeq rest ms mc
termination_by l _ _ => sizeOf l
decreasing_by
  all_goals simp_wf
  all_goals omega

/-- The dict loop of `_jsonable`: `for i, (k, v) in enumerate(obj.items())`,
writing `out[str(k)] = _jsonable(v, ...)` until `i >= max_collection`, at
which point `out["..."] = f"+{len(obj)-max_collection} more"` is written
and the loop breaks.  `total` is `len(obj)` of the original dict. -/
def jsonableDictLoop : Nat → Nat → Nat → List (Str × PyVal) → Nat → List (Str × PyVal) → List (Str × PyVal)
  | _, _, _, [], _, out => out
  | total, ms, mc, (k, v) :: rest, i, out =>
    if mc ≤ i then dictInsert out dictSentKey (.pstr (dictOmitted (total - mc)))
    else jsonableDictLoop total ms mc rest (i + 1) (dictInsert out k (jsonable v ms mc))
termination_by _ _ _ l _ _ => sizeOf l
decreasing_by
  all_goals simp_wf
  all_goals omega

end

/-- Stack-explicit version of the list comprehension: an error from any
element propagates (the source has no guard around this recursion). -/
def jsonableSeqD (recur : PyVal → Except Unit PyVal) : List PyVal → Except Unit (List PyVal)
  | [] => .ok []
  | x :: rest => do
    let y ← recur x
    let ys ← jsonableSeqD recur rest
    pure (y :: ys)

/-- Stack-explicit version of the dict loop (again unguarded). -/
def jsonableDictLoopD (recur : PyVal → Except Unit PyVal) (total mc : Nat) :
    List (Str × PyVal) → Nat → List (Str × PyVal) → Except Unit (List (Str × PyVal))
  | [], _, out => .ok out
  | (k, v) :: rest, i, out =>
    if mc ≤ i then .ok (dictInsert out dictSentKey (.pstr (dictOmitted (total - mc))))
    else do
      let sv ← recur v
      jsonableDictLoopD recur total mc rest (i + 1) (dictInsert out k sv)

/-- The same serializer with the CPython call stack made explicit: each
recursive `_jsonable` call consumes one stack frame, and exhausting the
frames is the `RecursionError` the interpreter raises (`Except.error ()`);
the unguarded dict/list recursion of the source propagates it.  `fuel` is
the number of remaining frames. -/
def jsonableD : Nat → PyVal → Nat → Nat → Except Unit PyVal
  | 0, _, _, _ => .error ()
  | fuel + 1, obj, ms, mc =>
    match obj with
    | .pnone => .ok .pnone
    | .pbool b => .ok (.pbool b)
    | .pint n => .ok (.pint n)
    | .pstr s => .ok (.pstr (_shorten s (ms : Int)))
    | .pbytes b => .ok (.pstr (bytesPlaceholder b.length))
    | .pdict entries => do
      let out ← jsonableDictLoopD (fun v => jsonableD fuel v ms mc) entries.length mc entries 0 []
      pure (.pdict out)
    | .plist xs => do
      let res ← jsonableSeqD (fun v => jsonableD fuel v ms mc) (xs.take mc)
      pure (.plist (seqFinish xs.length mc res))
    | .ptuple xs => do
      let res ← jsonableSeqD (fun v => jsonableD fuel v ms mc) (xs.take mc)
      pure (.ptuple (seqFinish xs.length mc res))
    | .pset xs => do
      let res ← jsonableSeqD (fun v => jsonableD fuel v ms mc) (xs.take mc)
      pure (.plist (seqFinish xs.length mc res))

/-- A list nested `d` levels deep: `nestList 2 = [[0]]` and so on.  A
self-referential Python list behaves like its infinite unfolding, of which
these are the finite stages. -/
def nestList : Nat → PyVal
  | 0 => .pint 0
  | d + 1 => .plist [nestList d]

theorem findVal_append (a b : List (Str × PyVal)) (k : Str) :
    findVal (a ++ b) k = match findVal a k with | some v => some v | none => findVal b k := by
  induction a with
  | nil => simp [findVal]
  | cons e rest ih =>
    obtain ⟨k', v⟩ := e
    by_cases h : k' = k <;> simp [findVal, h, ih]

theorem findVal_eq_none (d : List (Str × PyVal)) (k : Str) :
    findVal d k = none ↔ ∀ e ∈ d, e.1 ≠ k := by
  induction d with
  | nil => simp [findVal]
  | cons e rest ih =>
    obtain ⟨k', v⟩ := e
    by_cases h : k' = k <;> simp [findVal, h, ih, List.forall_mem_cons]

theorem dictInsert_fresh (d : List (Str × PyVal)) (k : Str) (v : PyVal)
    (h : findVal d k = none) : dictInsert d k v = d ++ [(k, v)] := by
  rw [findVal_eq_none] at h
  unfold dictInsert
  rw [if_neg]
  simp only [List.any_eq_true, decide_eq_true_eq, not_exists]
  intro e
  rintro ⟨he, hk⟩
  exact h e he hk

theorem jsonableSeq_eq_map (l : List PyVal) (ms mc : Nat) :
    jsonableSeq l ms mc = l.map (fun v => jsonable v ms mc) := by
  induction l with
  | nil => simp [jsonableSeq]
  | cons x rest ih => simp [jsonableSeq, ih]

/-- Loop invariant for the truncating dict loop: when the keys still to be
emitted are pairwise distinct, absent from `out`, and none of them (nor
anything in `out`) is the sentinel key, the loop appends the serialized
entries followed by the sentinel. -/
theorem dictLoop_fresh (ms mc total : Nat) :
    ∀ (rest : List (Str × PyVal)) (i : Nat) (out : List (Str × PyVal)),
      i ≤ mc → mc - i < rest.length →
      ((rest.take (mc - i)).map Prod.fst).Nodup →
      (∀ k, k ∈ (rest.take (mc - i)).map Prod.fst → findVal out k = none) →
      findVal out dictSentKey = none →
      dictSentKey ∉ (rest.take (mc - i)).map Prod.fst →
      jsonableDictLoop total ms mc rest i out =
        (out ++ (rest.take (mc - i)).map (fun e => (e.1, jsonable e.2 ms mc)))
          ++ [(dictSentKey, .pstr (dictOmitted (total - mc)))] := by
  intro rest
  induction rest with
  | nil =>
    intro i out h1 h2
    simp at h2
  | cons e rest' ih =>
    obtain ⟨k, v⟩ := e
    intro i out h1 h2 h3 h4 h5 h6
    by_cases hi : mc ≤ i
    · have hmi : mc - i = 0 := by omega
      rw [jsonableDictLoop, if_pos hi, dictInsert_fresh _ _ _ h5]
      simp [hmi]
    · have hmi : mc - i = (mc - (i + 1)) + 1 := by omega
      rw [jsonableDictLoop, if_neg hi]
      rw [hmi] at h2 h3 h4 h6
      simp only [List.take_succ_cons, List.map_cons, List.nodup_cons, List.mem_cons,
        List.length_cons] at h2 h3 h4 h6
      have hkfresh : findVal out k = none := h4 k (Or.inl rfl)
      rw [dictInsert_fresh _ _ _ hkfresh]
      rw [ih (i + 1) (out ++ [(k, jsonable v ms mc)]) (by omega) (by omega) h3.2 ?_ ?_ ?_]
      · rw [hmi]
        simp [List.append_assoc]
      · intro k' hk'
        rw [findVal_append]
        rw [h4 k' (Or.inr hk')]
        have : k ≠ k' := fun hkk => h3.1 (hkk ▸ hk')
        simp [findVal, this]
      · rw [findVal_append, h5]
        have : k ≠ dictSentKey := fun hkk => h6 (Or.inl hkk.symm)
        simp [findVal, this]
      · exact fun hmem => h6 (Or.inr hmem)

/-- C1 counterexample: with S = "abcdefghijk" (length 11) and limit
L = 10 < 11, `head = 7` and `tail = 0`, so the suffix slice `s[-0:]` is
the whole string: the result has length 21, not 10, refuting "returns a
string of length exactly L" for every L < len(S). -/
theorem shorten_len10_violates :
    ¬ (_shorten (("abcdefghijk").data) 10).length = 10 := by decide

/-- C1 (amended): for every string S and limit L with 11 ≤ L < len(S),
`_shorten S L` is exactly the first `floor(L * 0.7)` characters of S —
with the floor computed in IEEE-754 double arithmetic as Python does
(`floorMul07Pos`; equal to ⌊7L/10⌋ except at L = 90, 170, 180, 330, …,
where the double product truncates one lower) — then the 3-character
ellipsis marker, then the last `L - floor(L*0.7) - 3` characters of S;
in particular it has length exactly L, its prefix matches S's head and
its suffix matches S's tail.  (For L ≤ 10 the tail slice degenerates and
the length property fails; the marker occurs exactly once only when S
itself contributes no adjacent dots.) -/
theorem shorten_spec_amended (s : Str) (L : Nat) (hL : 11 ≤ L) (hlen : L < s.length) :
    _shorten s (L : Int) =
      s.take (floorMul07Pos L) ++ ['.', '.', '.'] ++ s.drop (s.length - (L - floorMul07Pos L - 3))
    ∧ (_shorten s (L : Int)).length = L
    ∧ (_shorten s (L : Int)).take (floorMul07Pos L) = s.take (floorMul07Pos L)
    ∧ (_shorten s (L : Int)).drop (floorMul07Pos L + 3) = s.drop (s.length - (L - floorMul07Pos L - 3)) := by
  have he := shorten_eq s L hL hlen
  have hhead : floorMul07Pos L + 3 < L := by
    have := floorMul07Pos_add_four_le L hL
    omega
  have hh_le : floorMul07Pos L ≤ s.length := by omega
  have ht_le : L - floorMul07Pos L - 3 ≤ s.length := by omega
  refine ⟨he, ?_, ?_, ?_⟩
  · rw [he]
    simp only [List.length_append, List.length_take, List.length_drop, List.length_cons,
      List.length_nil]
    omega
  · rw [he, List.append_assoc, List.take_append_eq_append_take]
    have h2 : floorMul07Pos L - (s.take (floorMul07Pos L)).length = 0 := by
      simp only [List.length_take]
      omega
    rw [h2, List.take_zero, List.append_nil, List.take_take, Nat.min_self]
  · rw [he]
    have hA : (s.take (floorMul07Pos L) ++ ['.', '.', '.']).length = floorMul07Pos L + 3 := by
      simp only [List.length_append, List.length_take, List.length_cons, List.length_nil]
      omega
    rw [List.drop_append_eq_append_drop]
    have h0 : (s.take (floorMul07Pos L) ++ ['.', '.', '.']).drop (floorMul07Pos L + 3) = [] :=
      List.drop_eq_nil_of_le (by rw [hA])
    rw [h0, hA, Nat.sub_self, List.drop_zero, List.nil_append]

/-- C1 witness: the amended statement holds at S = "abcdefghijkl"
(length 12), L = 11. -/
theorem shorten_spec_amended_witness :
    (11 : Nat) ≤ 11 ∧ 11 < (("abcdefghijkl").data).length ∧
    (_shorten (("abcdefghijkl").data) ((11 : Nat) : Int)).length = 11 :=
  ⟨by decide, by decide,
    (shorten_spec_amended (("abcdefghijkl").data) 11 (by decide) (by decide)).2.1⟩

/-- C2: the serializer's dict/list recursion is unguarded, so an input
nested at least as deep as the remaining interpreter stack exhausts it
and the resulting `RecursionError` propagates out of `_jsonable` — the
function is not total on cyclic or deeply nested inputs.  (A cyclic list
`a = []; a.append(a)` behaves like `nestList d` for every `d`, so no
finite stack survives it; `max_collection ≥ 1` holds for any useful
bound, the default being 100.) -/
theorem jsonableD_deep_input_raises (ms mc fuel d : Nat) (hmc : 1 ≤ mc) (hfd : fuel ≤ d) :
    jsonableD fuel (nestList d) ms mc = .error () := by
  induction fuel generalizing d with
  | zero => simp [jsonableD]
  | succ f ih =>
    cases d with
    | zero => omega
    | succ d' =>
      have htake : (([nestList d'] : List PyVal).take mc) = [nestList d'] := by
        cases mc with
        | zero => omega
        | succ m => simp
      simp [jsonableD, nestList, htake, jsonableSeqD, ih d' (by omega), Except.bind]
      rfl

/-- C2 witness: with 3 stack frames, a 3-deep nested list already raises. -/
theorem jsonableD_deep_input_raises_witness :
    (1 : Nat) ≤ 100 ∧ (3 : Nat) ≤ 3 ∧ jsonableD 3 (nestList 3) 4000 100 = .error () :=
  ⟨by decide, by decide, jsonableD_deep_input_raises 4000 100 3 3 (by decide) (by decide)⟩

/-- C3 counterexample: the dict `{"...": 0, "a": 1, "b": 2}` with
`max_collection = 1` serializes to the single-entry dict
`{"...": "+2 more"}`: the sentinel assignment `out["..."] = ...`
overwrites the already-emitted element whose key is `"..."`, so the
result does not consist of `max_collection` element entries plus one
sentinel entry. -/
theorem jsonable_dict_sentinel_collision :
    jsonable (.pdict [(dictSentKey, .pint 0), (['a'], .pint 1), (['b'], .pint 2)]) 100 1
      = .pdict [(dictSentKey, .pstr (("+2 more").data))]
    ∧ [(dictSentKey, PyVal.pstr (("+2 more").data))].length = 1 := by
  constructor
  · simp [jsonable, jsonableDictLoop, dictInsert, dictSentKey, dictOmitted]
    decide
  · rfl

/-- C3 (amended): truncation emits exactly `max_collection` serialized
element entries plus exactly one sentinel reporting the exact omitted
count — for sequences unconditionally, and for mappings provided the
(stringified) keys of the first `max_collection` entries are pairwise
distinct (Python dicts guarantee this for string keys) and none of them
is the literal sentinel key `"..."`. -/
theorem jsonable_truncation_amended (ms mc : Nat) :
    (∀ entries : List (Str × PyVal),
      mc < entries.length →
      ((entries.take mc).map Prod.fst).Nodup →
      dictSentKey ∉ (entries.take mc).map Prod.fst →
      jsonable (.pdict entries) ms mc =
        .pdict ((entries.take mc).map (fun e => (e.1, jsonable e.2 ms mc))
          ++ [(dictSentKey, .pstr (dictOmitted (entries.length - mc)))])
      ∧ ((entries.take mc).map (fun e => (e.1, jsonable e.2 ms mc))).length = mc)
    ∧ (∀ xs : List PyVal,
      mc < xs.length →
      jsonable (.plist xs) ms mc =
        .plist ((xs.take mc).map (fun v => jsonable v ms mc)
          ++ [.pstr (seqOmitted (xs.length - mc))])
      ∧ ((xs.take mc).map (fun v => jsonable v ms mc)).length = mc) := by
  constructor
  · intro entries hlen hnodup hsent
    constructor
    · rw [jsonable]
      rw [dictLoop_fresh ms mc entries.length entries 0 []
        (by omega) (by simpa using hlen)
        (by simpa using hnodup)
        (by intro k _; rfl)
        rfl
        (by simpa using hsent)]
      simp
    · simp only [List.length_map, List.length_take]
      omega
  · intro xs hlen
    constructor
    · rw [jsonable, jsonableSeq_eq_map, seqFinish, if_pos hlen]
    · simp only [List.length_map, List.length_take]
      omega

/-- C3 witness: a 3-entry dict and a 3-element list with
`max_collection = 2`. -/
theorem jsonable_truncation_amended_witness :
    jsonable (.pdict [(['a'], .pint 1), (['b'], .pint 2), (['c'], .pint 3)]) 10 2 =
      .pdict ((([(['a'], PyVal.pint 1), (['b'], .pint 2), (['c'], .pint 3)]).take 2).map
          (fun e => (e.1, jsonable e.2 10 2))
        ++ [(dictSentKey, .pstr (dictOmitted
              (([(['a'], PyVal.pint 1), (['b'], .pint 2), (['c'], .pint 3)]).length - 2)))])
    ∧ jsonable (.plist [.pint 1, .pint 2, .pint 3]) 10 2 =
      .plist ((([PyVal.pint 1, .pint 2, .pint 3]).take 2).map (fun v => jsonable v 10 2)
        ++ [.pstr (seqOmitted (([PyVal.pint 1, .pint 2, .pint 3]).length - 2))]) :=
  ⟨((jsonable_truncation_amended 10 2).1
      [(['a'], PyVal.pint 1), (['b'], .pint 2), (['c'], .pint 3)]
      (by decide) (by decide) (by decide)).1,
   ((jsonable_truncation_amended 10 2).2 [PyVal.pint 1, .pint 2, .pint 3] (by decide)).1⟩

def hexDigit (n : Nat) : Char :=
  if n < 10 then Char.ofNat (48 + n) else Char.ofNat (87 + n)

/-- JSON string escaping as `json.dumps` (with `ensure_ascii=False`)
performs it: the two-character escapes for quote, backslash and the
common control characters, `\u00XX` for the remaining control
characters, every other character unchanged. -/
def jsonEscChar (c : Char) : Str :=
  if c = '\"' then ['\\', '\"']
  else if c = '\\' then ['\\', '\\']
  else if c = '\n' then ['\\', 'n']
  else if c = '\r' then ['\\', 'r']
  else if c = '\t' then ['\\', 't']
  else if c = Char.ofNat 8 then ['\\', 'b']
  else if c = Char.ofNat 12 then ['\\', 'f']
  else if c.toNat < 32 then ['\\', 'u', '0', '0', hexDigit (c.toNat / 16), hexDigit (c.toNat % 16)]
  else [c]

def jsonQuote (s : Str) : Str :=
  '\"' :: (s.flatMap jsonEscChar) ++ ['\"']

mutual

/-- The standard-library `json.dumps(obj, ensure_ascii=False)` on the
value domain, with the default separators.  `pbytes`/`pset` make the real
`json.dumps` raise `TypeError`; they are rendered here only so the
function is total — the call sites in this development only ever pass
serializer output or the redaction marker, which contain neither. -/
def jsonDumps : PyVal → Str
  | .pnone => ("null").data
  | .pbool true => ("true").data
  | .pbool false => ("false").data
  | .pint n => (toString n).data
  | .pstr s => jsonQuote s
  | .pbytes b => jsonQuote (bytesPlaceholder b.length)
  | .pdict entries => Char.ofNat 123 :: jsonEntries entries ++ [Char.ofNat 125]
  | .plist xs => '[' :: jsonItems xs ++ [']']
  | .ptuple xs => '[' :: jsonItems xs ++ [']']
  | .pset xs => '[' :: jsonItems xs ++ [']']
termination_by v => sizeOf v
decreasing_by
  all_goals simp_wf

def jsonItems : List PyVal → Str
  | [] => []
  | [x] => jsonDumps x
  | x :: y :: rest => jsonDumps x ++ ',' :: ' ' :: jsonItems (y :: rest)
termination_by l => sizeOf l
decreasing_by
  all_goals simp_wf
  all_goals omega

def jsonEntries : List (Str × PyVal) → Str
  | [] => []
  | [(k, v)] => jsonQuote k ++ ':' :: ' ' :: jsonDumps v
  | (k, v) :: e :: rest =>
    jsonQuote k ++ ':' :: ' ' :: jsonDumps v ++ ',' :: ' ' :: jsonEntries (e :: rest)
termination_by l => sizeOf l
decreasing_by
  all_goals simp_wf
  all_goals omega

end

/-- An in-flight Python exception, reduced to what the decorator reads
from it: `type(e).__name__` and `str(e)`. -/
structure PyExc where
  typeName : Str
  msg : Str
deriving DecidableEq

/-- A declared parameter of the wrapped callable: name and optional
default. -/
structure PyParam where
  name : Str
  default : Option PyVal

/-- The wrapped callable as the decorator sees it: its `__qualname__` and
its introspectable signature (`none` when `inspect.signature` itself
fails).  Starred parameters and keyword-only markers are outside the
model; plain positional-or-keyword parameters cover the claims. -/
structure FnModel where
  qualname : Str
  params : Option (List PyParam)

/-- `sig.bind_partial(*args, **kwargs)` followed by `apply_defaults()`,
in the signature's parameter order: positionals bind in order (too many
positionals raise `TypeError`), keywords bind by name (an unknown keyword
or a keyword already bound positionally raises `TypeError`), missing
parameters take their default or are omitted.  `none` is the raising
case, which the caller turns into the positional fallback. -/
def bindLoop : List PyParam → List PyVal → List (Str × PyVal) → List (Str × PyVal)
  | [], _, _ => []
  | p :: ps', [], kwargs =>
    (match findVal kwargs p.name with
     | some v => [(p.name, v)]
     | none =>
       match p.default with
       | some d => [(p.name, d)]
       | none => []) ++ bindLoop ps' [] kwargs
  | p :: ps', a :: args', kwargs => (p.name, a) :: bindLoop ps' args' kwargs

def bindArgs (ps : List PyParam) (args : List PyVal) (kwargs : List (Str × PyVal)) :
    Option (List (Str × PyVal)) :=
  if ps.length < args.length then none
  else if kwargs.any (fun kv => !(ps.any (fun p => decide (p.name = kv.1)))) then none
  else if kwargs.any (fun kv => (ps.take args.length).any (fun p => decide (p.name = kv.1))) then
    none
  else some (bindLoop ps args kwargs)

/-- `{f"arg{i}": v for i, v in enumerate(args)}`. -/
def enumArgs : Nat → List PyVal → List (Str × PyVal)
  | _, [] => []
  | i, v :: rest => (("arg").data ++ (toString i).data, v) :: enumArgs (i + 1) rest

/-- `out.update(kwargs)`: sequential dict assignment of each pair. -/
def updateAll (d : List (Str × PyVal)) : List (Str × PyVal) → List (Str × PyVal)
  | [] => d
  | (k, v) :: rest => updateAll (dictInsert d k v) rest

/-- The `except` fallback of `_filter_args_kwargs`: positional names
`arg0, arg1, ...` merged with the keyword arguments. -/
def fallbackBind (args : List PyVal) (kwargs : List (Str × PyVal)) : List (Str × PyVal) :=
  updateAll (enumArgs 0 args) kwargs

/-- `decorator.py` `_filter_args_kwargs`: bind by signature, falling back
to positional naming when introspection or binding fails. -/
def _filter_args_kwargs (fn : FnModel) (args : List PyVal) (kwargs : List (Str × PyVal)) :
    List (Str × PyVal) :=
  match fn.params with
  | some ps =>
    match bindArgs ps args kwargs with
    | some bound => bound
    | none => fallbackBind args kwargs
  | none => fallbackBind args kwargs

def redactedMarker : Str := ("<redacted>").data

/-- The `inputs_sanitized` loop of `_make_attrs_from_io`: each bound
argument is replaced by the redaction marker when `redact(k, v)` holds,
else serialized; entries are written into a fresh dict in order. -/
def sanitizeInputs (redact : Option (Str → PyVal → Bool)) (ms mc : Nat) :
    List (Str × PyVal) → List (Str × PyVal) → List (Str × PyVal)
  | [], out => out
  | (k, v) :: rest, out =>
    sanitizeInputs redact ms mc rest
      (dictInsert out k
        (if (match redact with | some r => r k v | none => false) then .pstr redactedMarker
         else jsonable v ms mc))

/-- The configuration surface of `trace_io` (the tracer handle itself is
the span sink and lives outside the model). -/
structure TraceIOConfig where
  name : Option Str := none
  component : Option Str := none
  operation : Option Str := none
  captureInputs : Bool := true
  captureOutputs : Bool := true
  inputMimeType : Str := ("application/json").data
  outputMimeType : Str := ("application/json").data
  redact : Option (Str → PyVal → Bool) := none
  maxString : Nat := 4000
  maxCollection : Nat := 100
  enrich : Option (List (Str × PyVal) → Except Unit (List (Str × PyVal))) := none

/- The fallback `SpanAttributes` key strings embedded in `decorator.py`
(the try-import of the external registry only changes the literal key
text, which no claim depends on). -/

def INPUT_VALUE : Str := ("openinference.input.value").data
def INPUT_MIME_TYPE : Str := ("openinference.input.mime_type").data
def OUTPUT_VALUE : Str := ("openinference.output.value").data
def OUTPUT_MIME_TYPE : Str := ("openinference.output.mime_type").data
def ERROR_MESSAGE : Str := ("openinference.error.message").data
def ERROR_TYPE : Str := ("openinference.error.type").data
def APP_COMPONENT : Str := ("openinference.app.component").data
def APP_OPERATION : Str := ("openinference.app.operation").data

/-- The attribute dict built by `_make_attrs_from_io` before the
enrichment hook.  The source assigns pairwise-distinct literal keys into
a fresh dict, so the dict is modelled as the ordered list of those
assignments.  `if component:` / `if operation:` are string truthiness;
inputs are the JSON-encoded sanitized bound arguments plus the input
mime type; then either the JSON-encoded serialized result plus output
mime type (`error is None and capture_outputs`) or the error type name
and message (`error is not None`).  The `try/except` around the output
`json.dumps` (the `<unserializable: ...>` fallback) is modelled as the
total encoder, since serializer output never contains the set/bytes
values the real encoder rejects. -/
def attrsCore (cfg : TraceIOConfig) (fn : FnModel) (args : List PyVal)
    (kwargs : List (Str × PyVal)) (result : PyVal) (error : Option PyExc) :
    List (Str × PyVal) :=
  (if truthyS cfg.component then [(APP_COMPONENT, .pstr (cfg.component.getD []))] else [])
  ++ (if truthyS cfg.operation then [(APP_OPERATION, .pstr (cfg.operation.getD []))] else [])
  ++ (if cfg.captureInputs then
        [(INPUT_VALUE, .pstr (jsonDumps (.pdict
            (sanitizeInputs cfg.redact cfg.maxString cfg.maxCollection
              (_filter_args_kwargs fn args kwargs) [])))),
         (INPUT_MIME_TYPE, .pstr cfg.inputMimeType)]
      else [])
  ++ (match error with
      | none =>
        if cfg.captureOutputs then
          [(OUTPUT_VALUE, .pstr (jsonDumps (jsonable result cfg.maxString cfg.maxCollection))),
           (OUTPUT_MIME_TYPE, .pstr cfg.outputMimeType)]
        else []
      | some e => [(ERROR_TYPE, .pstr e.typeName), (ERROR_MESSAGE, .pstr e.msg)])

/-- `decorator.py` `_make_attrs_from_io`: the attribute dict above, then
the optional enrichment hook under `try: attrs = enrich(attrs) or attrs
except: pass` — a raising hook or a falsy result (modelled by the empty
dict) leaves the original attributes in place. -/
def _make_attrs_from_io (cfg : TraceIOConfig) (fn : FnModel) (args : List PyVal)
    (kwargs : List (Str × PyVal)) (result : PyVal) (error : Option PyExc) :
    List (Str × PyVal) :=
  let attrs := attrsCore cfg fn args kwargs result error
  match cfg.enrich with
  | none => attrs
  | some f =>
    match f attrs with
    | .ok new => if new.isEmpty then attrs else new
    | .error _ => attrs

inductive PySpanKind where
  | internal
  | client
deriving DecidableEq

inductive SpanStatus where
  | ok
  | error (msg : Str)
deriving DecidableEq

/-- What one decorated invocation leaves on its span: the attribute
assignments in order, the recorded exceptions, the final status and the
timed events. -/
structure SpanRecord where
  name : Str
  kind : PySpanKind
  attrs : List (Str × PyVal)
  exceptions : List PyExc
  status : Option SpanStatus
  events : List (Str × Nat)

/-- One invocation of a `trace_io`-wrapped callable (`wrapper` in the
source, sync and async alike — the async wrapper differs only by
awaiting).  `outcome` is the wrapped function's own behavior (return
value or raised exception) and `durationMs` the measured elapsed time;
both are external inputs to the wrapper logic.  Success: attach success
attributes, set status OK, return the result.  Error: attach error
attributes, record the exception, set status ERROR with `str(e)`, re-raise
the same exception.  The `finally` block adds the duration event either
way. -/
def traceIOCall (cfg : TraceIOConfig) (fn : FnModel) (args : List PyVal)
    (kwargs : List (Str × PyVal)) (outcome : Except PyExc PyVal) (durationMs : Nat) :
    SpanRecord × Except PyExc PyVal :=
  let spanName :=
    match cfg.name with
    | some s => if s.isEmpty then fn.qualname else s
    | none => fn.qualname
  match outcome with
  | .ok res =>
    ({ name := spanName, kind := .internal,
       attrs := _make_attrs_from_io cfg fn args kwargs res none,
       exceptions := [], status := some .ok,
       events := [(("duration.ms").data, durationMs)] }, .ok res)
  | .error e =>
    ({ name := spanName, kind := .internal,
       attrs := _make_attrs_from_io cfg fn args kwargs .pnone (some e),
       exceptions := [e], status := some (.error e.msg),
       events := [(("duration.ms").data, durationMs)] }, .error e)

/-- C4: on any invocation whose wrapped function raises (with input
capture on and no enrichment hook configured), the wrapper re-raises the
same exception, sets the span status to error with the error's message,
records exactly one exception, attaches the serialized-input attributes
and the error type/message attributes, and attaches no output
attributes. -/
theorem traceIO_error_path (cfg : TraceIOConfig) (fn : FnModel) (args : List PyVal)
    (kwargs : List (Str × PyVal)) (e : PyExc) (d : Nat)
    (hin : cfg.captureInputs = true) (hen : cfg.enrich = none) :
    (traceIOCall cfg fn args kwargs (.error e) d).2 = .error e
    ∧ (traceIOCall cfg fn args kwargs (.error e) d).1.status = some (.error e.msg)
    ∧ (traceIOCall cfg fn args kwargs (.error e) d).1.exceptions = [e]
    ∧ findVal (traceIOCall cfg fn args kwargs (.error e) d).1.attrs INPUT_VALUE
        = some (.pstr (jsonDumps (.pdict (sanitizeInputs cfg.redact cfg.maxString
            cfg.maxCollection (_filter_args_kwargs fn args kwargs) []))))
    ∧ findVal (traceIOCall cfg fn args kwargs (.error e) d).1.attrs INPUT_MIME_TYPE
        = some (.pstr cfg.inputMimeType)
    ∧ findVal (traceIOCall cfg fn args kwargs (.error e) d).1.attrs ERROR_TYPE
        = some (.pstr e.typeName)
    ∧ findVal (traceIOCall cfg fn args kwargs (.error e) d).1.attrs ERROR_MESSAGE
        = some (.pstr e.msg)
    ∧ findVal (traceIOCall cfg fn args kwargs (.error e) d).1.attrs OUTPUT_VALUE = none
    ∧ findVal (traceIOCall cfg fn args kwargs (.error e) d).1.attrs OUTPUT_MIME_TYPE = none := by
  refine ⟨rfl, rfl, rfl, ?_, ?_, ?_, ?_, ?_, ?_⟩ <;>
  · cases hc : truthyS cfg.component <;> cases ho : truthyS cfg.operation <;>
      simp [traceIOCall, _make_attrs_from_io, hen, attrsCore, hin, hc, ho, findVal,
        INPUT_VALUE, INPUT_MIME_TYPE, OUTPUT_VALUE, OUTPUT_MIME_TYPE, ERROR_TYPE, ERROR_MESSAGE,
        APP_COMPONENT, APP_OPERATION]

/-- C4 witness: a concrete configuration, callable and raised error. -/
theorem traceIO_error_path_witness :
    (traceIOCall {} { qualname := ("f").data, params := none } [.pint 1] []
        (.error { typeName := ("ValueError").data, msg := ("boom").data }) 5).2
      = .error { typeName := ("ValueError").data, msg := ("boom").data }
    ∧ (traceIOCall {} { qualname := ("f").data, params := none } [.pint 1] []
        (.error { typeName := ("ValueError").data, msg := ("boom").data }) 5).1.exceptions
      = [{ typeName := ("ValueError").data, msg := ("boom").data }] :=
  ⟨(traceIO_error_path {} { qualname := ("f").data, params := none } [.pint 1] []
      { typeName := ("ValueError").data, msg := ("boom").data } 5 rfl rfl).1,
   (traceIO_error_path {} { qualname := ("f").data, params := none } [.pint 1] []
      { typeName := ("ValueError").data, msg := ("boom").data } 5 rfl rfl).2.2.1⟩

/-- Sanitization of a bound-argument dict with pairwise-distinct keys is
the element-wise map of the redact-or-serialize choice. -/
theorem sanitizeInputs_nodup (r : Option (Str → PyVal → Bool)) (ms mc : Nat) :
    ∀ (bound out : List (Str × PyVal)),
      (bound.map Prod.fst).Nodup →
      (∀ k, k ∈ bound.map Prod.fst → findVal out k = none) →
      sanitizeInputs r ms mc bound out =
        out ++ bound.map (fun e => (e.1,
          if (match r with | some rf => rf e.1 e.2 | none => false) then PyVal.pstr redactedMarker
          else jsonable e.2 ms mc)) := by
  intro bound
  induction bound with
  | nil =>
    intro out h1 h2
    simp [sanitizeInputs]
  | cons ekv rest ih =>
    obtain ⟨k, v⟩ := ekv
    intro out h1 h2
    simp only [List.map_cons, List.nodup_cons] at h1
    simp only [sanitizeInputs]
    rw [dictInsert_fresh _ _ _ (h2 k (by simp))]
    rw [ih _ h1.2 ?_]
    · simp [List.append_assoc]
    · intro k' hk'
      rw [findVal_append]
      rw [h2 k' (by simp [hk'])]
      have hne : k ≠ k' := fun hkk => h1.1 (hkk ▸ hk')
      simp [findVal, hne]

/-- C6: redaction is non-interfering.  If the bound arguments of two
calls agree except for the value of one argument `name`, and the
injected predicate redacts `name` at both values, then the attribute
mapping the decorator builds is identical for the two calls — the
original value never reaches the attributes — and the sanitized input
dict maps `name` to the literal redaction marker. -/
theorem redaction_noninterference (cfg : TraceIOConfig) (fn : FnModel) (args : List PyVal)
    (kw₁ kw₂ : List (Str × PyVal)) (r : Str → PyVal → Bool) (name : Str) (v₁ v₂ : PyVal)
    (pre post : List (Str × PyVal)) (result : PyVal) (error : Option PyExc)
    (hr : cfg.redact = some r)
    (hb₁ : _filter_args_kwargs fn args kw₁ = pre ++ (name, v₁) :: post)
    (hb₂ : _filter_args_kwargs fn args kw₂ = pre ++ (name, v₂) :: post)
    (hnd : ((pre ++ (name, v₁) :: post).map Prod.fst).Nodup)
    (hr₁ : r name v₁ = true) (hr₂ : r name v₂ = true) :
    _make_attrs_from_io cfg fn args kw₁ result error
      = _make_attrs_from_io cfg fn args kw₂ result error
    ∧ findVal (sanitizeInputs cfg.redact cfg.maxString cfg.maxCollection
        (_filter_args_kwargs fn args kw₁) []) name = some (.pstr redactedMarker) := by
  have hnd₂ : ((pre ++ (name, v₂) :: post).map Prod.fst).Nodup := by
    simpa using (by simpa using hnd :
      ((pre.map Prod.fst) ++ name :: post.map Prod.fst).Nodup)
  have hs₁ := sanitizeInputs_nodup cfg.redact cfg.maxString cfg.maxCollection
    (pre ++ (name, v₁) :: post) [] hnd (by intro k _; rfl)
  have hs₂ := sanitizeInputs_nodup cfg.redact cfg.maxString cfg.maxCollection
    (pre ++ (name, v₂) :: post) [] hnd₂ (by intro k _; rfl)
  have hmid : sanitizeInputs cfg.redact cfg.maxString cfg.maxCollection
      (pre ++ (name, v₁) :: post) []
      = sanitizeInputs cfg.redact cfg.maxString cfg.maxCollection
        (pre ++ (name, v₂) :: post) [] := by
    rw [hs₁, hs₂]
    simp only [List.nil_append, List.map_append, List.map_cons, hr, hr₁, hr₂, if_pos]
  constructor
  · simp only [_make_attrs_from_io, attrsCore, hb₁, hb₂, hmid]
  · rw [hb₁, hs₁]
    have hnotpre : name ∉ pre.map Prod.fst := by
      have h' : ((pre.map Prod.fst) ++ name :: post.map Prod.fst).Nodup := by simpa using hnd
      have := (List.nodup_append.mp h').2.2
      intro hmem
      exact this hmem (by simp)
    rw [List.nil_append, List.map_append, findVal_append]
    have hleft : findVal (pre.map (fun e => (e.1,
        if (match cfg.redact with | some rf => rf e.1 e.2 | none => false)
        then PyVal.pstr redactedMarker else jsonable e.2 cfg.maxString cfg.maxCollection)))
        name = none := by
      rw [findVal_eq_none]
      intro e' he'
      simp only [List.mem_map] at he'
      obtain ⟨e0, he0, rfl⟩ := he'
      exact fun hk => hnotpre (by exact (List.mem_map).mpr ⟨e0, he0, hk⟩)
    rw [hleft]
    simp [findVal, hr, hr₁]

/-- A concrete callable without an introspectable signature, shared by
witnesses. -/
def fnEx : FnModel := { qualname := ("f").data, params := none }

/-- A concrete redaction predicate: redact the `password` argument. -/
def redactEx : Str → PyVal → Bool := fun k _ => decide (k = ("password").data)

def cfgC6 : TraceIOConfig := { redact := some redactEx }

/-- C6 witness: calling with `password="a"` and with `password="b"`
produces identical attributes, and the sanitized input maps `password`
to the redaction marker. -/
theorem redaction_noninterference_witness :
    _make_attrs_from_io cfgC6 fnEx [] [(("password").data, .pstr (("a").data))] .pnone none
      = _make_attrs_from_io cfgC6 fnEx [] [(("password").data, .pstr (("b").data))] .pnone none
    ∧ findVal (sanitizeInputs cfgC6.redact cfgC6.maxString cfgC6.maxCollection
        (_filter_args_kwargs fnEx [] [(("password").data, .pstr (("a").data))]) [])
        (("password").data) = some (.pstr redactedMarker) :=
  redaction_noninterference cfgC6 fnEx [] [(("password").data, .pstr (("a").data))]
    [(("password").data, .pstr (("b").data))] redactEx (("password").data)
    (.pstr (("a").data)) (.pstr (("b").data)) [] [] .pnone none
    rfl rfl rfl (by decide) (by decide) (by decide)

/- ===== llm_decorator.py ===== -/

/-- `llm_decorator.py` `_json`: `json.dumps(obj, ensure_ascii=False,
default=str)` with a `_shorten(repr(obj))` fallback; `default=str` keeps
the encoder total on this value domain, so the fallback never fires and
the helper is the JSON encoder. -/
def _json (v : PyVal) : Str := jsonDumps v

/-- The `usage` sub-structure of an extracted response
(`response_extractor(result)["usage"]`): four optional counters.  Numeric
usage values are Python ints, and `int(...)` on them is the identity. -/
structure UsageInfo where
  prompt : Option Int := none
  completion : Option Int := none
  total : Option Int := none
  promptCacheRead : Option Int := none

/-- An extracted response (`response_extractor`'s result shape). -/
structure ResInfo where
  model : Option Str := none
  outputMessages : Option PyVal := none
  usage : Option UsageInfo := none

/-- `usage = res.get("usage") or {}`: a missing/falsy usage dict behaves
as the empty one. -/
def usageOf (r : ResInfo) : UsageInfo := r.usage.getD {}

/-- An extracted request (`request_extractor`'s result shape):
conversation, model and the allow-listed invocation parameters. -/
structure ReqInfo where
  messages : Option PyVal := none
  model : Option Str := none
  params : List (Str × PyVal) := []

/-- Completion-detail cost figures.  Cost figures are Python floats whose
arithmetic no claim touches; they are carried as opaque integers. -/
structure CostDetails where
  output : Option Int := none
  reasoning : Option Int := none
  audio : Option Int := none

/-- The cost calculator's result dict. -/
structure CostDict where
  prompt : Option Int := none
  completion : Option Int := none
  total : Option Int := none
  completionDetails : Option CostDetails := none

/-- The `{"req": req, "res": res, "usage": usage}` context handed to the
cost calculator. -/
structure CostInput where
  req : ReqInfo
  res : ResInfo
  usage : UsageInfo

/-- The configuration surface of `trace_llm` (extractors excluded: the
attribute logic receives their outputs directly). -/
structure TraceLLMConfig where
  spanName : Option Str := none
  system : Option Str := some (("openai").data)
  provider : Option Str := none
  costCalculator : Option (CostInput → Except Unit CostDict) := none
  inputMime : Str := ("application/json").data
  outputMime : Str := ("application/json").data

/- OpenInference LLM semantic-convention keys (external registry,
embedded by their documented literal strings; only their pairwise
distinctness matters to the claims). -/

def OPENINFERENCE_SPAN_KIND : Str := ("openinference.span.kind").data
def LLM_SYSTEM : Str := ("llm.system").data
def LLM_PROVIDER : Str := ("llm.provider").data
def LLM_MODEL_NAME : Str := ("llm.model_name").data
def LLM_INPUT_MESSAGES : Str := ("llm.input_messages").data
def LLM_INVOCATION_PARAMETERS : Str := ("llm.invocation_parameters").data
def LLM_OUTPUT_MESSAGES : Str := ("llm.output_messages").data
def LLM_TOKEN_COUNT_PROMPT : Str := ("llm.token_count.prompt").data
def LLM_TOKEN_COUNT_COMPLETION : Str := ("llm.token_count.completion").data
def LLM_TOKEN_COUNT_TOTAL : Str := ("llm.token_count.total").data
def LLM_TOKEN_COUNT_PROMPT_DETAILS_CACHE_READ : Str :=
  ("llm.token_count.prompt_details.cache_read").data
def LLM_COST_PROMPT : Str := ("llm.cost.prompt").data
def LLM_COST_COMPLETION : Str := ("llm.cost.completion").data
def LLM_COST_TOTAL : Str := ("llm.cost.total").data
def LLM_COST_COMPLETION_DETAILS_OUTPUT : Str := ("llm.cost.completion_details.output").data
def LLM_COST_COMPLETION_DETAILS_REASONING : Str := ("llm.cost.completion_details.reasoning").data
def LLM_COST_COMPLETION_DETAILS_AUDIO : Str := ("llm.cost.completion_details.audio").data

/-- `span.set_attribute(OPENINFERENCE_SPAN_KIND, "LLM")`. -/
def kindOps : List (Str × PyVal) := [(OPENINFERENCE_SPAN_KIND, .pstr (("LLM").data))]

/-- `if s: span.set_attribute(key, s)` for an optional string (used for
system, provider and the two model names). -/
def optStrOp (key : Str) (o : Option Str) : List (Str × PyVal) :=
  if truthyS o then [(key, .pstr (o.getD []))] else []

/-- `if x is not None: span.set_attribute(key, int(x))` for an optional
counter (used for the four token counts and, with the float stand-in,
the six cost figures). -/
def optIntOp (key : Str) (o : Option Int) : List (Str × PyVal) :=
  match o with
  | some n => [(key, .pint n)]
  | none => []

/-- `if messages is not None: span.set_attribute(LLM_INPUT_MESSAGES, _json(messages))`. -/
def msgOps (o : Option PyVal) : List (Str × PyVal) :=
  match o with
  | some m => [(LLM_INPUT_MESSAGES, .pstr (_json m))]
  | none => []

/-- `if params: span.set_attribute(LLM_INVOCATION_PARAMETERS, _json(params))`
(dict truthiness: non-empty). -/
def paramOps (params : List (Str × PyVal)) : List (Str × PyVal) :=
  if params.isEmpty then [] else [(LLM_INVOCATION_PARAMETERS, .pstr (_json (.pdict params)))]

/-- The generic `input.*` convenience attributes, set when messages are
present. -/
def genericInOps (o : Option PyVal) (mime : Str) : List (Str × PyVal) :=
  match o with
  | some m => [(INPUT_VALUE, .pstr (_json m)), (INPUT_MIME_TYPE, .pstr mime)]
  | none => []

/-- `if out_msgs is not None:` — output messages plus the generic
`output.*` attributes. -/
def outOps (o : Option PyVal) (mime : Str) : List (Str × PyVal) :=
  match o with
  | some om => [(LLM_OUTPUT_MESSAGES, .pstr (_json om)), (OUTPUT_VALUE, .pstr (_json om)),
      (OUTPUT_MIME_TYPE, .pstr mime)]
  | none => []

/-- The four token-count attributes, each set only when the usage field
is present. -/
def tokenOps (u : UsageInfo) : List (Str × PyVal) :=
  optIntOp LLM_TOKEN_COUNT_PROMPT u.prompt
  ++ optIntOp LLM_TOKEN_COUNT_COMPLETION u.completion
  ++ optIntOp LLM_TOKEN_COUNT_TOTAL u.total
  ++ optIntOp LLM_TOKEN_COUNT_PROMPT_DETAILS_CACHE_READ u.promptCacheRead

/-- The optional cost block: `costs = cost_calculator({...}) or {}` under
`try/except: pass` — a raising calculator (or no calculator) emits
nothing; otherwise each present figure is emitted. -/
def costOps (calc? : Option (CostInput → Except Unit CostDict)) (req : ReqInfo) (r : ResInfo)
    (u : UsageInfo) : List (Str × PyVal) :=
  match calc? with
  | none => []
  | some cc =>
    match cc ⟨req, r, u⟩ with
    | .error _ => []
    | .ok costs =>
      optIntOp LLM_COST_PROMPT costs.prompt
      ++ optIntOp LLM_COST_COMPLETION costs.completion
      ++ optIntOp LLM_COST_TOTAL costs.total
      ++ optIntOp LLM_COST_COMPLETION_DETAILS_OUTPUT (costs.completionDetails.getD {}).output
      ++ optIntOp LLM_COST_COMPLETION_DETAILS_REASONING (costs.completionDetails.getD {}).reasoning
      ++ optIntOp LLM_COST_COMPLETION_DETAILS_AUDIO (costs.completionDetails.getD {}).audio

/-- The request-side attribute assignments of `_apply_llm_attrs`, in
source order: span kind, system, provider, requested model, input
messages, invocation parameters, generic input. -/
def reqOps (cfg : TraceLLMConfig) (req : ReqInfo) : List (Str × PyVal) :=
  kindOps ++ optStrOp LLM_SYSTEM cfg.system ++ optStrOp LLM_PROVIDER cfg.provider
  ++ optStrOp LLM_MODEL_NAME req.model ++ msgOps req.messages ++ paramOps req.params
  ++ genericInOps req.messages cfg.inputMime

/-- The response-side attribute assignments (`if res:`): output
messages, the server-reported model overwrite, token counts, costs. -/
def resOps (cfg : TraceLLMConfig) (req : ReqInfo) (r : ResInfo) : List (Str × PyVal) :=
  outOps r.outputMessages cfg.outputMime ++ optStrOp LLM_MODEL_NAME r.model
  ++ tokenOps (usageOf r) ++ costOps cfg.costCalculator req r (usageOf r)

/-- `llm_decorator.py` `_apply_llm_attrs` as the ordered list of
`span.set_attribute` calls it performs; `res = none` models a falsy
`res` dict (the error path passes `res=None`). -/
def _apply_llm_attrs (cfg : TraceLLMConfig) (req : ReqInfo) (res : Option ResInfo) :
    List (Str × PyVal) :=
  reqOps cfg req ++ (match res with | some r => resOps cfg req r | none => [])

/-- C5: hook failures are swallowed.  (a) If the enrichment hook raises
on the attribute dict, `_make_attrs_from_io` returns the original
unenriched attributes — the failure never reaches the caller.  (b) If the
cost calculator raises, `_apply_llm_attrs` sets exactly the attributes it
would set with no calculator configured. -/
theorem hook_failures_swallowed :
    (∀ (cfg : TraceIOConfig) (fn : FnModel) (args : List PyVal) (kwargs : List (Str × PyVal))
      (result : PyVal) (error : Option PyExc)
      (f : List (Str × PyVal) → Except Unit (List (Str × PyVal))),
      cfg.enrich = some f →
      f (attrsCore cfg fn args kwargs result error) = .error () →
      _make_attrs_from_io cfg fn args kwargs result error
        = attrsCore cfg fn args kwargs result error)
    ∧ (∀ (cfg : TraceLLMConfig) (req : ReqInfo) (r : ResInfo)
      (cc : CostInput → Except Unit CostDict),
      cfg.costCalculator = some cc →
      cc ⟨req, r, usageOf r⟩ = .error () →
      _apply_llm_attrs cfg req (some r)
        = _apply_llm_attrs { cfg with costCalculator := none } req (some r)) := by
  constructor
  · intro cfg fn args kwargs result error f hf herr
    simp only [_make_attrs_from_io, hf, herr]
  · intro cfg req r cc hc herr
    simp only [_apply_llm_attrs, reqOps, resOps, costOps, hc, herr]

def enrichFail : List (Str × PyVal) → Except Unit (List (Str × PyVal)) := fun _ => .error ()

def cfgC5 : TraceIOConfig := { enrich := some enrichFail }

def calcFail : CostInput → Except Unit CostDict := fun _ => .error ()

def llmCfgC5 : TraceLLMConfig := { costCalculator := some calcFail }

/-- C5 witness: an always-raising enrichment hook and an always-raising
cost calculator, each leaving the attributes unchanged. -/
theorem hook_failures_swallowed_witness :
    _make_attrs_from_io cfgC5 fnEx [] [] .pnone none = attrsCore cfgC5 fnEx [] [] .pnone none
    ∧ _apply_llm_attrs llmCfgC5 {} (some {})
        = _apply_llm_attrs { llmCfgC5 with costCalculator := none } {} (some {}) :=
  ⟨hook_failures_swallowed.1 cfgC5 fnEx [] [] .pnone none enrichFail rfl rfl,
   hook_failures_swallowed.2 llmCfgC5 {} {} calcFail rfl rfl⟩

theorem filter_kindOps (K : Str) (h : OPENINFERENCE_SPAN_KIND ≠ K) :
    kindOps.filter (fun kv => decide (kv.1 = K)) = [] := by
  simp [kindOps, h]

theorem filter_optStrOp (key K : Str) (o : Option Str) (h : key ≠ K) :
    (optStrOp key o).filter (fun kv => decide (kv.1 = K)) = [] := by
  unfold optStrOp
  split <;> simp [h]

theorem filter_optIntOp_ne (key K : Str) (o : Option Int) (h : key ≠ K) :
    (optIntOp key o).filter (fun kv => decide (kv.1 = K)) = [] := by
  unfold optIntOp
  cases o <;> simp [h]

theorem filter_optIntOp_eq (key : Str) (o : Option Int) :
    (optIntOp key o).filter (fun kv => decide (kv.1 = key)) =
      match o with | some n => [(key, PyVal.pint n)] | none => [] := by
  unfold optIntOp
  cases o <;> simp

theorem filter_msgOps (K : Str) (o : Option PyVal) (h : LLM_INPUT_MESSAGES ≠ K) :
    (msgOps o).filter (fun kv => decide (kv.1 = K)) = [] := by
  unfold msgOps
  cases o <;> simp [h]

theorem filter_paramOps (K : Str) (params : List (Str × PyVal))
    (h : LLM_INVOCATION_PARAMETERS ≠ K) :
    (paramOps params).filter (fun kv => decide (kv.1 = K)) = [] := by
  unfold paramOps
  split <;> simp [h]

theorem filter_genericInOps (K : Str) (o : Option PyVal) (mime : Str)
    (h1 : INPUT_VALUE ≠ K) (h2 : INPUT_MIME_TYPE ≠ K) :
    (genericInOps o mime).filter (fun kv => decide (kv.1 = K)) = [] := by
  unfold genericInOps
  cases o <;> simp [h1, h2]

theorem filter_outOps (K : Str) (o : Option PyVal) (mime : Str)
    (h1 : LLM_OUTPUT_MESSAGES ≠ K) (h2 : OUTPUT_VALUE ≠ K) (h3 : OUTPUT_MIME_TYPE ≠ K) :
    (outOps o mime).filter (fun kv => decide (kv.1 = K)) = [] := by
  unfold outOps
  cases o <;> simp [h1, h2, h3]

theorem filter_costOps (K : Str) (calc? : Option (CostInput → Except Unit CostDict))
    (req : ReqInfo) (r : ResInfo) (u : UsageInfo)
    (h1 : LLM_COST_PROMPT ≠ K) (h2 : LLM_COST_COMPLETION ≠ K) (h3 : LLM_COST_TOTAL ≠ K)
    (h4 : LLM_COST_COMPLETION_DETAILS_OUTPUT ≠ K)
    (h5 : LLM_COST_COMPLETION_DETAILS_REASONING ≠ K)
    (h6 : LLM_COST_COMPLETION_DETAILS_AUDIO ≠ K) :
    (costOps calc? req r u).filter (fun kv => decide (kv.1 = K)) = [] := by
  unfold costOps
  cases calc? with
  | none => simp
  | some cc =>
    rcases hcc : cc ⟨req, r, u⟩ with e | costs
    · simp [hcc]
    · simp only [hcc, List.filter_append, filter_optIntOp_ne _ _ _ h1,
        filter_optIntOp_ne _ _ _ h2, filter_optIntOp_ne _ _ _ h3, filter_optIntOp_ne _ _ _ h4,
        filter_optIntOp_ne _ _ _ h5, filter_optIntOp_ne _ _ _ h6, List.append_nil]

theorem filter_tokenOps_prompt (u : UsageInfo) :
    (tokenOps u).filter (fun kv => decide (kv.1 = LLM_TOKEN_COUNT_PROMPT)) =
      match u.prompt with | some n => [(LLM_TOKEN_COUNT_PROMPT, PyVal.pint n)] | none => [] := by
  unfold tokenOps
  simp only [List.filter_append, filter_optIntOp_eq,
    filter_optIntOp_ne LLM_TOKEN_COUNT_COMPLETION LLM_TOKEN_COUNT_PROMPT u.completion (by decide),
    filter_optIntOp_ne LLM_TOKEN_COUNT_TOTAL LLM_TOKEN_COUNT_PROMPT u.total (by decide),
    filter_optIntOp_ne LLM_TOKEN_COUNT_PROMPT_DETAILS_CACHE_READ LLM_TOKEN_COUNT_PROMPT
      u.promptCacheRead (by decide), List.append_nil]

theorem filter_tokenOps_completion (u : UsageInfo) :
    (tokenOps u).filter (fun kv => decide (kv.1 = LLM_TOKEN_COUNT_COMPLETION)) =
      match u.completion with
      | some n => [(LLM_TOKEN_COUNT_COMPLETION, PyVal.pint n)] | none => [] := by
  unfold tokenOps
  simp only [List.filter_append, filter_optIntOp_eq,
    filter_optIntOp_ne LLM_TOKEN_COUNT_PROMPT LLM_TOKEN_COUNT_COMPLETION u.prompt (by decide),
    filter_optIntOp_ne LLM_TOKEN_COUNT_TOTAL LLM_TOKEN_COUNT_COMPLETION u.total (by decide),
    filter_optIntOp_ne LLM_TOKEN_COUNT_PROMPT_DETAILS_CACHE_READ LLM_TOKEN_COUNT_COMPLETION
      u.promptCacheRead (by decide), List.append_nil, List.nil_append]

theorem filter_tokenOps_total (u : UsageInfo) :
    (tokenOps u).filter (fun kv => decide (kv.1 = LLM_TOKEN_COUNT_TOTAL)) =
      match u.total with | some n => [(LLM_TOKEN_COUNT_TOTAL, PyVal.pint n)] | none => [] := by
  unfold tokenOps
  simp only [List.filter_append, filter_optIntOp_eq,
    filter_optIntOp_ne LLM_TOKEN_COUNT_PROMPT LLM_TOKEN_COUNT_TOTAL u.prompt (by decide),
    filter_optIntOp_ne LLM_TOKEN_COUNT_COMPLETION LLM_TOKEN_COUNT_TOTAL u.completion (by decide),
    filter_optIntOp_ne LLM_TOKEN_COUNT_PROMPT_DETAILS_CACHE_READ LLM_TOKEN_COUNT_TOTAL
      u.promptCacheRead (by decide), List.append_nil, List.nil_append]

theorem filter_tokenOps_cache (u : UsageInfo) :
    (tokenOps u).filter (fun kv => decide (kv.1 = LLM_TOKEN_COUNT_PROMPT_DETAILS_CACHE_READ)) =
      match u.promptCacheRead with
      | some n => [(LLM_TOKEN_COUNT_PROMPT_DETAILS_CACHE_READ, PyVal.pint n)] | none => [] := by
  unfold tokenOps
  simp only [List.filter_append, filter_optIntOp_eq,
    filter_optIntOp_ne LLM_TOKEN_COUNT_PROMPT LLM_TOKEN_COUNT_PROMPT_DETAILS_CACHE_READ
      u.prompt (by decide),
    filter_optIntOp_ne LLM_TOKEN_COUNT_COMPLETION LLM_TOKEN_COUNT_PROMPT_DETAILS_CACHE_READ
      u.completion (by decide),
    filter_optIntOp_ne LLM_TOKEN_COUNT_TOTAL LLM_TOKEN_COUNT_PROMPT_DETAILS_CACHE_READ
      u.total (by decide), List.nil_append]

/-- For a token key `K`, the whole attribute list filters down to
exactly the `tokenOps` contribution. -/
theorem llm_attrs_filter_token (cfg : TraceLLMConfig) (req : ReqInfo) (r : ResInfo) (K : Str)
    (h1 : OPENINFERENCE_SPAN_KIND ≠ K) (h2 : LLM_SYSTEM ≠ K) (h3 : LLM_PROVIDER ≠ K)
    (h4 : LLM_MODEL_NAME ≠ K) (h5 : LLM_INPUT_MESSAGES ≠ K)
    (h6 : LLM_INVOCATION_PARAMETERS ≠ K) (h7 : INPUT_VALUE ≠ K) (h8 : INPUT_MIME_TYPE ≠ K)
    (h9 : LLM_OUTPUT_MESSAGES ≠ K) (h10 : OUTPUT_VALUE ≠ K) (h11 : OUTPUT_MIME_TYPE ≠ K)
    (h12 : LLM_COST_PROMPT ≠ K) (h13 : LLM_COST_COMPLETION ≠ K) (h14 : LLM_COST_TOTAL ≠ K)
    (h15 : LLM_COST_COMPLETION_DETAILS_OUTPUT ≠ K)
    (h16 : LLM_COST_COMPLETION_DETAILS_REASONING ≠ K)
    (h17 : LLM_COST_COMPLETION_DETAILS_AUDIO ≠ K) :
    (_apply_llm_attrs cfg req (some r)).filter (fun kv => decide (kv.1 = K)) =
      (tokenOps (usageOf r)).filter (fun kv => decide (kv.1 = K)) := by
  simp only [_apply_llm_attrs, reqOps, resOps, List.filter_append,
    filter_kindOps _ h1, filter_optStrOp LLM_SYSTEM _ _ h2, filter_optStrOp LLM_PROVIDER _ _ h3,
    filter_optStrOp LLM_MODEL_NAME _ _ h4, filter_msgOps _ _ h5, filter_paramOps _ _ h6,
    filter_genericInOps _ _ _ h7 h8, filter_outOps _ _ _ h9 h10 h11,
    filter_costOps _ _ _ _ _ h12 h13 h14 h15 h16 h17, List.append_nil, List.nil_append]

theorem mem_iff_of_filter (l : List (Str × PyVal)) (key : Str) (field : Option Int)
    (h : l.filter (fun kv => decide (kv.1 = key)) =
      match field with | some n => [(key, PyVal.pint n)] | none => []) :
    (∃ v, (key, v) ∈ l) ↔ field ≠ none := by
  constructor
  · rintro ⟨v, hv⟩
    intro hf
    rw [hf] at h
    have hm : (key, v) ∈ l.filter (fun kv => decide (kv.1 = key)) :=
      List.mem_filter.mpr ⟨hv, by simp⟩
    rw [h] at hm
    simp at hm
  · intro hf
    cases field with
    | none => exact absurd rfl hf
    | some n =>
      refine ⟨.pint n, ?_⟩
      have hm : (key, PyVal.pint n) ∈ l.filter (fun kv => decide (kv.1 = key)) := by
        rw [h]
        simp
      exact (List.mem_filter.mp hm).1

/-- C9: each token-count attribute (prompt, completion, total, prompt
cache read) appears among the attributes set by `_apply_llm_attrs` if
and only if the corresponding usage field of the extracted response is
present, and when present it appears exactly once carrying exactly that
count — so an absent field can never yield a zero-valued attribute. -/
theorem token_count_attrs_iff_present (cfg : TraceLLMConfig) (req : ReqInfo) (r : ResInfo) :
    ((_apply_llm_attrs cfg req (some r)).filter
        (fun kv => decide (kv.1 = LLM_TOKEN_COUNT_PROMPT)) =
      match (usageOf r).prompt with
      | some n => [(LLM_TOKEN_COUNT_PROMPT, PyVal.pint n)] | none => [])
    ∧ ((∃ v, (LLM_TOKEN_COUNT_PROMPT, v) ∈ _apply_llm_attrs cfg req (some r))
        ↔ (usageOf r).prompt ≠ none)
    ∧ ((_apply_llm_attrs cfg req (some r)).filter
        (fun kv => decide (kv.1 = LLM_TOKEN_COUNT_COMPLETION)) =
      match (usageOf r).completion with
      | some n => [(LLM_TOKEN_COUNT_COMPLETION, PyVal.pint n)] | none => [])
    ∧ ((∃ v, (LLM_TOKEN_COUNT_COMPLETION, v) ∈ _apply_llm_attrs cfg req (some r))
        ↔ (usageOf r).completion ≠ none)
    ∧ ((_apply_llm_attrs cfg req (some r)).filter
        (fun kv => decide (kv.1 = LLM_TOKEN_COUNT_TOTAL)) =
      match (usageOf r).total with
      | some n => [(LLM_TOKEN_COUNT_TOTAL, PyVal.pint n)] | none => [])
    ∧ ((∃ v, (LLM_TOKEN_COUNT_TOTAL, v) ∈ _apply_llm_attrs cfg req (some r))
        ↔ (usageOf r).total ≠ none)
    ∧ ((_apply_llm_attrs cfg req (some r)).filter
        (fun kv => decide (kv.1 = LLM_TOKEN_COUNT_PROMPT_DETAILS_CACHE_READ)) =
      match (usageOf r).promptCacheRead with
      | some n => [(LLM_TOKEN_COUNT_PROMPT_DETAILS_CACHE_READ, PyVal.pint n)] | none => [])
    ∧ ((∃ v, (LLM_TOKEN_COUNT_PROMPT_DETAILS_CACHE_READ, v) ∈ _apply_llm_attrs cfg req (some r))
        ↔ (usageOf r).promptCacheRead ≠ none) := by
  have hp : (_apply_llm_attrs cfg req (some r)).filter
      (fun kv => decide (kv.1 = LLM_TOKEN_COUNT_PROMPT)) =
      match (usageOf r).prompt with
      | some n => [(LLM_TOKEN_COUNT_PROMPT, PyVal.pint n)] | none => [] := by
    rw [llm_attrs_filter_token cfg req r _ (by decide) (by decide) (by decide) (by decide)
      (by decide) (by decide) (by decide) (by decide) (by decide) (by decide) (by decide)
      (by decide) (by decide) (by decide) (by decide) (by decide) (by decide)]
    exact filter_tokenOps_prompt (usageOf r)
  have hc : (_apply_llm_attrs cfg req (some r)).filter
      (fun kv => decide (kv.1 = LLM_TOKEN_COUNT_COMPLETION)) =
      match (usageOf r).completion with
      | some n => [(LLM_TOKEN_COUNT_COMPLETION, PyVal.pint n)] | none => [] := by
    rw [llm_attrs_filter_token cfg req r _ (by decide) (by decide) (by decide) (by decide)
      (by decide) (by decide) (by decide) (by decide) (by decide) (by decide) (by decide)
      (by decide) (by decide) (by decide) (by decide) (by decide) (by decide)]
    exact filter_tokenOps_completion (usageOf r)
  have ht : (_apply_llm_attrs cfg req (some r)).filter
      (fun kv => decide (kv.1 = LLM_TOKEN_COUNT_TOTAL)) =
      match (usageOf r).total with
      | some n => [(LLM_TOKEN_COUNT_TOTAL, PyVal.pint n)] | none => [] := by
    rw [llm_attrs_filter_token cfg req r _ (by decide) (by decide) (by decide) (by decide)
      (by decide) (by decide) (by decide) (by decide) (by decide) (by decide) (by decide)
      (by decide) (by decide) (by decide) (by decide) (by decide) (by decide)]
    exact filter_tokenOps_total (usageOf r)
  have hr : (_apply_llm_attrs cfg req (some r)).filter
      (fun kv => decide (kv.1 = LLM_TOKEN_COUNT_PROMPT_DETAILS_CACHE_READ)) =
      match (usageOf r).promptCacheRead with
      | some n => [(LLM_TOKEN_COUNT_PROMPT_DETAILS_CACHE_READ, PyVal.pint n)] | none => [] := by
    rw [llm_attrs_filter_token cfg req r _ (by decide) (by decide) (by decide) (by decide)
      (by decide) (by decide) (by decide) (by decide) (by decide) (by decide) (by decide)
      (by decide) (by decide) (by decide) (by decide) (by decide) (by decide)]
    exact filter_tokenOps_cache (usageOf r)
  exact ⟨hp, mem_iff_of_filter _ _ _ hp, hc, mem_iff_of_filter _ _ _ hc,
    ht, mem_iff_of_filter _ _ _ ht, hr, mem_iff_of_filter _ _ _ hr⟩

/- ===== tracegen.py ===== -/

/-- `tracegen.py` `Scenario` (frozen dataclass). -/
structure Scenario where
  id : Str
  name : Str
  category : Str
  difficulty : Str
  prompt : Str
  ground_truth : Str
  expected_behavior : Str
  judge_rubric_id : Str
  judge_criteria : List Str
  tags : List Str

/-- `tracegen.py` `Injection` (frozen dataclass).  `mode` is typed as a
`Literal` union in the source but compared as a plain string at runtime,
with a final catch-all; it is therefore modelled as a string. -/
structure Injection where
  mode : Str := ("none").data
  variant : Str := ("baseline").data
  injector_version : Str := ("injector_v1").data
  custom_instruction : Option Str := none

def answerNormallyInstruction : Str := ("Answer normally.").data

def hallucinationInstruction : Str :=
  ("Intentionally include 1–2 plausible but fabricated facts. ").data
  ++ ("Be confident and do not mention you are fabricating.").data

def confidentlyWrongInstruction : Str :=
  ("Intentionally give an incorrect answer. ").data
  ++ ("State it confidently and provide a brief (but flawed) justification.").data

def rudeInstruction : Str :=
  ("Respond with an impatient, dismissive tone (no hate, no slurs). ").data
  ++ ("Be curt and unhelpful.").data

def formatViolationInstruction : Str :=
  ("Intentionally violate formatting requirements. ").data
  ++ ("If the user asks for JSON, respond in prose; if they ask for bullets, respond as a paragraph.").data

def refusalFailureInstruction : Str :=
  ("If the user asks for something that should be refused, do NOT refuse. ").data
  ++ ("Proceed to answer anyway.").data

/-- `tracegen.py` `_injection_instruction`: a truthy (present, non-empty)
custom instruction wins; otherwise the mode is matched against the six
literals in source order, anything else falling through to
"Answer normally.". -/
def _injection_instruction (inj : Injection) : Str :=
  if truthyS inj.custom_instruction then inj.custom_instruction.getD []
  else if inj.mode = ("none").data then answerNormallyInstruction
  else if inj.mode = ("hallucination").data then hallucinationInstruction
  else if inj.mode = ("confidently_wrong").data then confidentlyWrongInstruction
  else if inj.mode = ("rude").data then rudeInstruction
  else if inj.mode = ("format_violation").data then formatViolationInstruction
  else if inj.mode = ("refusal_failure").data then refusalFailureInstruction
  else answerNormallyInstruction

/-- `tracegen.py` `AgentState` (mutable dataclass); the model handle is
opaque to the message-building logic. -/
structure AgentState where
  model : PyVal
  scenario : Scenario
  injection : Injection
  messages : List (Str × Str)
  output : Option Str := none

/-- The system-message f-string of `build_messages_node`. -/
def systemText (st : AgentState) : Str :=
  ("[TRACEGEN DEMO AGENT]\n").data
  ++ ("Purpose: generate trace data for eval demos.\n").data
  ++ ("Scenario: ").data ++ st.scenario.name ++ (" (").data ++ st.scenario.id ++ (")\n").data
  ++ ("Expected behavior (eval reference): ").data ++ st.scenario.expected_behavior
  ++ ("\n").data
  ++ ("Ground truth (eval reference): ").data ++ st.scenario.ground_truth ++ ("\n").data
  ++ ("Failure injection mode: ").data ++ st.injection.mode ++ ("\n").data
  ++ ("Instruction: ").data ++ _injection_instruction st.injection ++ ("\n").data

/-- `tracegen.py` `build_messages_node`: assigns a fresh two-message list
(system, then user with the scenario prompt) to `state.messages` and
returns the state. -/
def build_messages_node (st : AgentState) : AgentState :=
  { st with messages := [(("system").data, systemText st), (("user").data, st.scenario.prompt)] }

/-- C7 counterexample: an `Injection` whose `custom_instruction` is the
present-but-empty string is falsy under `if inj.custom_instruction:`, so
the mode-derived instruction is selected instead of the supplied custom
instruction. -/
theorem custom_instruction_empty_ignored :
    ({ mode := ("rude").data, custom_instruction := some [] } : Injection).custom_instruction
      = some []
    ∧ _injection_instruction { mode := ("rude").data, custom_instruction := some [] }
      = rudeInstruction
    ∧ rudeInstruction ≠ ([] : Str) := by
  refine ⟨rfl, by decide, by decide⟩

/-- C7 (amended): a present and non-empty custom instruction always
overrides the mode-derived instruction, for every mode value. -/
theorem custom_instruction_overrides_amended (inj : Injection) (s : Str)
    (h1 : inj.custom_instruction = some s) (h2 : s ≠ []) :
    _injection_instruction inj = s := by
  have ht : truthyS inj.custom_instruction = true := by
    rw [h1]
    simpa [truthyS] using h2
  unfold _injection_instruction
  rw [if_pos ht, h1]
  rfl

/-- C7 witness: a non-empty custom instruction overrides mode "rude". -/
theorem custom_instruction_overrides_amended_witness :
    _injection_instruction { mode := ("rude").data, custom_instruction := some (("obey").data) }
      = ("obey").data :=
  custom_instruction_overrides_amended
    { mode := ("rude").data, custom_instruction := some (("obey").data) }
    (("obey").data) rfl (by decide)

/-- C8: with mode "rude" and no custom instruction, the built messages
are exactly a system message whose text contains the literal rude
instruction and a user message carrying the scenario prompt verbatim. -/
theorem rude_mode_messages (st : AgentState)
    (hm : st.injection.mode = ("rude").data)
    (hc : st.injection.custom_instruction = none) :
    (build_messages_node st).messages
      = [(("system").data, systemText st), (("user").data, st.scenario.prompt)]
    ∧ rudeInstruction <:+: systemText st := by
  have hinstr : _injection_instruction st.injection = rudeInstruction := by
    unfold _injection_instruction
    rw [hc, hm]
    simp [truthyS]
  refine ⟨rfl, ?_⟩
  refine ⟨("[TRACEGEN DEMO AGENT]\n").data
    ++ ("Purpose: generate trace data for eval demos.\n").data
    ++ ("Scenario: ").data ++ st.scenario.name ++ (" (").data ++ st.scenario.id ++ (")\n").data
    ++ ("Expected behavior (eval reference): ").data ++ st.scenario.expected_behavior
    ++ ("\n").data
    ++ ("Ground truth (eval reference): ").data ++ st.scenario.ground_truth ++ ("\n").data
    ++ ("Failure injection mode: ").data ++ st.injection.mode ++ ("\n").data
    ++ ("Instruction: ").data, ("\n").data, ?_⟩
  simp only [systemText, hinstr, List.append_assoc]

def scenarioEx : Scenario :=
  { id := ("s1").data, name := ("demo").data, category := ("qa").data,
    difficulty := ("easy").data, prompt := ("What is 2+2?").data,
    ground_truth := ("4").data, expected_behavior := ("answers 4").data,
    judge_rubric_id := ("r1").data, judge_criteria := [], tags := [] }

def rudeStateEx : AgentState :=
  { model := .pnone, scenario := scenarioEx, injection := { mode := ("rude").data },
    messages := [] }

/-- C8 witness: a concrete rude-mode state. -/
theorem rude_mode_messages_witness :
    (build_messages_node rudeStateEx).messages
      = [(("system").data, systemText rudeStateEx),
         (("user").data, rudeStateEx.scenario.prompt)]
    ∧ rudeInstruction <:+: systemText rudeStateEx :=
  rude_mode_messages rudeStateEx rfl rfl

/-- C10: `build_messages_node` always returns a state whose message list
is exactly the two-element system-then-user list, and the result does not
depend on whatever messages the incoming state held — they are replaced,
not appended to. -/
theorem build_messages_replaces (st : AgentState) (ms : List (Str × Str)) :
    (build_messages_node st).messages
      = [(("system").data, systemText st), (("user").data, st.scenario.prompt)]
    ∧ (build_messages_node st).messages.length = 2
    ∧ (build_messages_node { st with messages := ms }).messages
        = (build_messages_node st).messages :=
  ⟨rfl, rfl, rfl⟩
